import Mathlib

/-!
# Verification of the `inzi` gauge/CNC offset core

Shallow embedding of the core logic of the `inzi` application
(`src-tauri/src/cnc.rs`, `src-tauri/src/fwlib.rs`, `src-tauri/src/gauge.rs`)
and proofs about its specification claims.

Modelling conventions:
* Rust `f64` arithmetic is modelled over `ℚ` (exact rational arithmetic);
  all quantities involved are small integers and their quotients.
* Machine integers `i16`/`i32` are modelled as `Int`, `u16`/`usize` as `Nat`
  (no claim here depends on wrap-around behaviour).
* Rust `HashMap`s are modelled as association lists with a first-match
  lookup; fallible Rust functions returning `anyhow::Result` become
  `Except String`.
-/

namespace Inzi

/-- Rust `f64::round`: round to the nearest integer, with halves rounded
away from zero. -/
def roundHalfAway (q : ℚ) : ℤ :=
  if 0 ≤ q then ⌊q + 1/2⌋ else ⌈q - 1/2⌉

/-- Remove the binding of key `k`, modelling `HashMap::remove`. -/
def aremove {α : Type} (l : List (Nat × α)) (k : Nat) : List (Nat × α) :=
  l.filter (fun p => !(p.1 == k))

/-- Replace (or add) the binding of key `k` in an association list,
modelling `HashMap::insert`. -/
def aset {α : Type} (l : List (Nat × α)) (k : Nat) (v : α) : List (Nat × α) :=
  (k, v) :: aremove l k

/-! ## `fwlib.rs`: the `FocasClient` state

A real (non-dummy) `FocasClient` holds a native library handle (`0` means
"no handle", i.e. disconnected) and a `busy` flag. -/

/-- The observable state of a `FocasClient` (real, non-dummy path):
the native handle value (`0` = released/none) and the `busy` flag. -/
structure FocasClient where
  handle : Nat
  busy : Bool
deriving Repr, DecidableEq

/-- `FocasClient::is_connected`: the native handle is non-zero. -/
def FocasClient.is_connected (c : FocasClient) : Bool :=
  c.handle != 0

/-- `FocasClient::is_busy`. -/
def FocasClient.is_busy (c : FocasClient) : Bool :=
  c.busy

/-- `FocasClient::set_busy`. -/
def FocasClient.set_busy (c : FocasClient) (b : Bool) : FocasClient :=
  { c with busy := b }

/-! ## `cnc.rs`: tool data and the batch aggregator -/

/-- `ToolData` (cnc.rs).  `f64` fields become `ℚ`. -/
structure ToolData where
  machine_id : Nat
  tool_num : Int
  basic_size : ℚ
  manual_offset : ℚ
  offset_rate : ℚ
  active : Bool
  avg_gauge : Option ℚ
  final_offset : Option ℚ
deriving Repr, DecidableEq

/-- `ToolData::get_final_offset`:
`(basic_size - avg_gauge + manual_offset) * offset_rate`, only when
`avg_gauge` is present. -/
def ToolData.get_final_offset (td : ToolData) : Option ℚ :=
  match td.avg_gauge with
  | some avg_gauge => some ((td.basic_size - avg_gauge + td.manual_offset) * td.offset_rate)
  | none => none

/-- `ToolData::get_final_offset_as_i32`: the final offset scaled by `10000.0`
and passed through `f64::round`. -/
def ToolData.get_final_offset_as_i32 (td : ToolData) : Option Int :=
  td.get_final_offset.map (fun offset => roundHalfAway (offset * 10000))

/-- The state of `GaugeBatches` (cnc.rs), together with the shared maps it
reads: per-machine queues of raw points, the tool-data table, the
controller handle table and the per-machine batch sizes. -/
structure GaugeBatches where
  batches : List (Nat × List Int)
  tool_data : List (Nat × (ToolData × ToolData))
  handle_table : List (Nat × FocasClient)
  batch_size : List (Nat × Nat)
deriving Repr, DecidableEq

/-- `GaugeBatches::insert`: push the response's point onto the machine's
queue (creating an empty queue first when absent). -/
def GaugeBatches.insert (gb : GaugeBatches) (machine_id : Nat) (point : Int) : GaugeBatches :=
  let q := (gb.batches.lookup machine_id).getD []
  { gb with batches := aset gb.batches machine_id (q ++ [point]) }

/-- The averaging step at the heart of `GaugeBatches::check_and_extract`
(cnc.rs lines 99–107): with more than 2 points, sort ascending and average
the slice `sorted[1 .. len-1]`; otherwise average everything. -/
def trimmedAvgRaw (batches : List Int) : ℚ :=
  if batches.length > 2 then
    let sorted := batches.insertionSort (· ≤ ·)
    (((sorted.drop 1).take (sorted.length - 2)).map (Int.cast : Int → ℚ)).sum
      / ((sorted.length : ℚ) - 2)
  else
    ((batches.map (Int.cast : Int → ℚ)).sum) / (batches.length : ℚ)

/-- `GaugeBatches::check_and_extract` (cnc.rs lines 84–137).  Returns the
(upper, lower) write requests — `(machine_id, tool_num, scaled offset)` —
or an error, together with the mutated aggregator state (the Rust function
takes `&mut self`, so state changes survive an `Err` return). -/
def GaugeBatches.check_and_extract (gb : GaugeBatches) (key : Nat) :
    Except String (Option (Nat × Int × Int) × Option (Nat × Int × Int)) × GaugeBatches :=
  match gb.handle_table.lookup key with
  | some handle =>
    if !handle.is_connected || handle.is_busy then
      (.ok (none, none), gb)
    else
      let batches := (gb.batches.lookup key).getD []
      let gb1 : GaugeBatches := { gb with batches := aremove gb.batches key }
      let bsz := (gb.batch_size.lookup key).getD 5
      if batches.length ≥ bsz then
        let avg_point : ℚ := (roundHalfAway (trimmedAvgRaw batches) : ℚ) / 10000
        match gb1.tool_data.lookup key with
        | some (tool_upper, tool_lower) =>
          let tu0 := { tool_upper with avg_gauge := some avg_point }
          let tl0 := { tool_lower with avg_gauge := some avg_point }
          let tu := { tu0 with final_offset := tu0.get_final_offset }
          let tl := { tl0 with final_offset := tl0.get_final_offset }
          let upper := if tu.active then
              tu.get_final_offset_as_i32.map (fun offset => (tu.machine_id, tu.tool_num, offset))
            else none
          let lower := if tl.active then
              tl.get_final_offset_as_i32.map (fun offset => (tl.machine_id, tl.tool_num, offset))
            else none
          (.ok (upper, lower), { gb1 with tool_data := aset gb1.tool_data key (tu, tl) })
        | none => (.error ("No tool data found for machine " ++ toString key), gb1)
      else
        (.ok (none, none), { gb1 with batches := aset gb1.batches key batches })
  | none =>
    (.error ("No CNC client found for machine " ++ toString key),
      { gb with batches := aremove gb.batches key })

/-- Length of the pending queue of machine `key` (an absent entry counts
as empty, matching `unwrap_or_else(Vec::new)`). -/
def GaugeBatches.queueLen (gb : GaugeBatches) (key : Nat) : Nat :=
  ((gb.batches.lookup key).getD []).length

/-! ## `fwlib.rs`: the `FocasClient` operations

Each operation is embedded as a function of the client state plus an
oracle for the outcomes of the native FOCAS calls.  Alongside its result
and final state, an operation yields an annotated trace: the observable
events, in program order, each paired with the client state immediately
after the event. -/

/-- Observable events of a `FocasClient` operation. -/
inductive FEvent where
  /-- `self.set_busy(b)` -/
  | setBusy (b : Bool)
  /-- the native `cnc_wrtofs(handle, number, ofs_type, 8, data)` call -/
  | nativeWrtofs (number ofs_type data : Int)
  /-- the native `cnc_rdtofs` call -/
  | nativeRdtofs (number ofs_type : Int)
  /-- the native `cnc_rdlife` call -/
  | nativeRdlife (number : Int)
  /-- the native `cnc_rdcount` call -/
  | nativeRdcount (number : Int)
  /-- `cnc_freelibhndl(current_handle)` followed by zeroing the stored handle -/
  | freeHandle
  /-- one `cnc_allclibhndl3` reconnection attempt and its outcome -/
  | allocAttempt (ok : Bool)
  /-- `tokio::time::sleep(Duration::from_secs(n))` -/
  | sleepSecs (n : Nat)
deriving Repr, DecidableEq

/-- Whether an event is a native controller call. -/
def FEvent.isNative : FEvent → Bool
  | .nativeWrtofs _ _ _ => true
  | .nativeRdtofs _ _ => true
  | .nativeRdlife _ => true
  | .nativeRdcount _ => true
  | _ => false

/-- An annotated trace: each event paired with the client state right
after it. -/
abbrev FTrace := List (FEvent × FocasClient)

/-- `FocasClient::rdtofs` (real, non-dummy path): the fail-fast
busy/connectivity guard, then a single native read — with no `set_busy`
bracketing around it.  `readOk`/`value` are the native call's outcome.
(The `get_error` detail lookup on failure is folded into the error
message.) -/
def FocasClient.rdtofs (c : FocasClient) (number ofs_type : Int)
    (readOk : Bool) (value : Int) : Except String Int × FocasClient × FTrace :=
  if c.is_busy || !c.is_connected then
    (.error "CNC is currently busy with another operation", c, [])
  else if readOk then
    (.ok value, c, [(.nativeRdtofs number ofs_type, c)])
  else
    (.error "Failed to read TOFS", c, [(.nativeRdtofs number ofs_type, c)])

/-- `FocasClient::read_life` (real path): guard, `set_busy(true)`, native
read, `set_busy(false)` — the flag is cleared before the result is even
inspected, so also on failure. -/
def FocasClient.read_life (c : FocasClient) (number : Int)
    (readOk : Bool) (value : Int) : Except String Int × FocasClient × FTrace :=
  if c.is_busy || !c.is_connected then
    (.error "CNC is currently busy with another operation", c, [])
  else
    let c1 := c.set_busy true
    let c2 := c1.set_busy false
    ((if readOk then .ok value else .error "Failed to read life"), c2,
      [(.setBusy true, c1), (.nativeRdlife number, c1), (.setBusy false, c2)])

/-- `FocasClient::read_count` (real path): same shape as `read_life`. -/
def FocasClient.read_count (c : FocasClient) (number : Int)
    (readOk : Bool) (value : Int) : Except String Int × FocasClient × FTrace :=
  if c.is_busy || !c.is_connected then
    (.error "CNC is currently busy with another operation", c, [])
  else
    let c1 := c.set_busy true
    let c2 := c1.set_busy false
    ((if readOk then .ok value else .error "Failed to read count"), c2,
      [(.setBusy true, c1), (.nativeRdcount number, c1), (.setBusy false, c2)])

/-- The inner reconnection loop of `FocasClient::wrtofs`: attempt
`cnc_allclibhndl3`; on failure sleep 5 s and retry; on success store the
new handle and leave the loop.  The oracle `cs` lists the outcomes of
successive attempts (`0` = failed attempt, `h ≠ 0` = success returning
native handle `h`); an exhausted oracle means the loop is still running. -/
def reconnectLoop : List Nat → FocasClient → Option (FocasClient × List Nat) × FTrace
  | [], _ => (none, [])
  | h :: rest, c =>
    if h = 0 then
      let r := reconnectLoop rest c
      (r.1, (.allocAttempt false, c) :: (.sleepSecs 5, c) :: r.2)
    else
      (some ({ c with handle := h }, rest), [(.allocAttempt true, { c with handle := h })])

/-- What `FocasClient::wrtofs` can do once past its guard: return `Ok(())`
with a final client state, or still be inside its unbounded retry loops
when the oracle runs out. -/
inductive WrtofsOutcome where
  | busyErr
  | running
  | ok (c : FocasClient)
deriving Repr, DecidableEq

/-- The retry loop of `FocasClient::wrtofs` (real path): read the stored
handle, `set_busy(true)`, native write; on success `set_busy(false)` and
return; on failure `set_busy(false)`, free and zero the handle, run the
reconnection loop, then retry the same write from the top.  `ws` is the
oracle of native-write outcomes, `cs` of reconnection outcomes. -/
def wrtofsGo : List Bool → List Nat → FocasClient → Int → Int → Int →
    Option FocasClient × FTrace
  | [], _, _, _, _, _ => (none, [])
  | w :: ws, cs, c, number, ofs_type, data =>
    let c1 := c.set_busy true
    if w then
      let c2 := c1.set_busy false
      (some c2,
        [(.setBusy true, c1), (.nativeWrtofs number ofs_type data, c1), (.setBusy false, c2)])
    else
      let c2 := c1.set_busy false
      let c3 : FocasClient := { c2 with handle := 0 }
      let pre : FTrace :=
        [(.setBusy true, c1), (.nativeWrtofs number ofs_type data, c1),
         (.setBusy false, c2), (.freeHandle, c3)]
      match reconnectLoop cs c3 with
      | (none, evs) => (none, pre ++ evs)
      | (some (c4, cs'), evs) =>
        let r := wrtofsGo ws cs' c4 number ofs_type data
        (r.1, pre ++ evs ++ r.2)

/-- `FocasClient::wrtofs` (real path): fail-fast guard, then the retry
loop.  Note the loop never surfaces a native-write failure: it either
returns `Ok` or keeps retrying. -/
def FocasClient.wrtofs (c : FocasClient) (number ofs_type data : Int)
    (ws : List Bool) (cs : List Nat) : WrtofsOutcome × FTrace :=
  if c.is_busy || !c.is_connected then
    (.busyErr, [])
  else
    match wrtofsGo ws cs c number ofs_type data with
    | (none, evs) => (.running, evs)
    | (some c', evs) => (.ok c', evs)

/-- An event list in which every native call is immediately bracketed by
`set_busy(true)` before and `set_busy(false)` after. -/
inductive BusyBracketed : List FEvent → Prop where
  | nil : BusyBracketed []
  | skip (e : FEvent) (tr : List FEvent) (h : e.isNative = false) :
      BusyBracketed tr → BusyBracketed (e :: tr)
  | bracket (ne : FEvent) (tr : List FEvent) (h : ne.isNative = true) :
      BusyBracketed tr →
      BusyBracketed (.setBusy true :: ne :: .setBusy false :: tr)

/-! ## `cnc.rs`: the write path -/

/-- One history record, as logged by `write_offset_to_cnc` (`OffsetLog`
in lib.rs, sans the wall-clock timestamp). -/
structure OffsetLog where
  machine_id : Nat
  tool_num : Int
  old_value : Int
  change_amount : Int
  new_value : Int
  success : Bool
deriving Repr, DecidableEq

/-- `write_offset_to_cnc` (cnc.rs lines 272–299): look up the client, read
the current stored offset, add the correction, write the sum back, and log
one record whose `success` field is `result.is_ok()`.  A `?`-propagated
read failure logs nothing.  `none` models the case where the write's
retry loop has not yet returned. -/
def write_offset_to_cnc (handle_table : List (Nat × FocasClient)) (machine_id : Nat)
    (tool_num : Int) (offset_diff : Int) (readOk : Bool) (current : Int)
    (ws : List Bool) (cs : List Nat) :
    Option (Except String Unit × List OffsetLog) :=
  match handle_table.lookup machine_id with
  | some client =>
    match (client.rdtofs tool_num 0 readOk current).1 with
    | .error e => some (.error e, [])
    | .ok data =>
      match (client.wrtofs tool_num 0 (data + offset_diff) ws cs).1 with
      | .running => none
      | res =>
        some (.ok (),
          [{ machine_id := machine_id, tool_num := tool_num, old_value := data,
             change_amount := offset_diff, new_value := data + offset_diff,
             success := match res with | .ok _ => true | _ => false }])
  | none => some (.error ("No CNC client found for machine " ++ toString machine_id), [])

/-! ## `gauge.rs`: frame decoding and edge-triggered measurement routing -/

/-- Commands the measurement router can enqueue towards the gauge. -/
inductive HexCommand where
  | Read
  | Write0
  | Write
deriving Repr, DecidableEq

/-- `LineMeasurement` (gauge.rs). -/
structure LineMeasurement where
  line_id : Nat
  value1 : Int
  value2 : Int
deriving Repr, DecidableEq

/-- `GaugeResponse` (gauge.rs); `raw_data` keeps the frame bytes (the Rust
field stores their hex encoding). -/
structure GaugeResponse where
  active_line : Nat
  raw_data : List Nat
  plc_data_on : Bool
  lines : List LineMeasurement
deriving Repr, DecidableEq

/-- `PLC_MEASUREMENT_COMPLETE` (gauge.rs line 162). -/
def PLC_MEASUREMENT_COMPLETE : Nat := 2

/-- `PLC_RESPONSE_MIN_LEN` (gauge.rs line 163): 9 header + 2 end code +
44 data bytes. -/
def PLC_RESPONSE_MIN_LEN : Nat := 55

/-- A byte of the buffer (bytes are `u8`, hence the mod). -/
def byteAt (bytes : List Nat) (i : Nat) : Nat :=
  (bytes.getD i 0) % 256

/-- `u16::from_le_bytes([bytes[i], bytes[i+1]])`. -/
def u16le (bytes : List Nat) (i : Nat) : Nat :=
  byteAt bytes i + 256 * byteAt bytes (i + 1)

/-- `i16::from_le_bytes([bytes[i], bytes[i+1]])`. -/
def i16le (bytes : List Nat) (i : Nat) : Int :=
  if u16le bytes i < 32768 then (u16le bytes i : Int) else (u16le bytes i : Int) - 65536

/-- The `parse_value` closure of `GaugeResponse::from_bytes`: a 2-byte
signed integer part and a 2-byte signed fractional part, combined as
`integer * 10000 + fractional`. -/
def parse_value (bytes : List Nat) (base : Nat) : Int :=
  i16le bytes base * 10000 + i16le bytes (base + 2)

/-- `GaugeResponse::from_bytes` (gauge.rs lines 166–220). -/
def GaugeResponse.from_bytes (bytes : List Nat) : Option GaugeResponse :=
  if bytes.length < 11 then none
  else if u16le bytes 9 ≠ 0 then none
  else if bytes.length < PLC_RESPONSE_MIN_LEN then none
  else
    some
      { active_line := u16le bytes 11
        raw_data := bytes
        plc_data_on := u16le bytes 13 == PLC_MEASUREMENT_COMPLETE
        lines :=
          [⟨1, parse_value bytes 31, parse_value bytes 35⟩,
           ⟨2, parse_value bytes 39, parse_value bytes 43⟩,
           ⟨3, parse_value bytes 47, parse_value bytes 51⟩] }

/-- `McProtocolCodec::decode` (gauge.rs lines 229–239): wait for 11 bytes,
read the little-endian length field at offset 7, wait for `length + 9`
bytes, split off exactly that many and hand them to `from_bytes`.  The
Rust codec returns `Result<Option<_>, _>` and never takes the `Err` path
here; the second component is the remaining buffer. -/
def McProtocolCodec.decode (src : List Nat) :
    Except String (Option GaugeResponse) × List Nat :=
  if src.length < 11 then (.ok none, src)
  else
    let length := u16le src 7
    if src.length < length + 9 then (.ok none, src)
    else (.ok (GaugeResponse.from_bytes (src.take (length + 9))), src.drop (length + 9))

/-- The fold body of `gauge_get_response` (gauge.rs lines 109–145), run
over the successfully decoded frames of one connection: publish the
response and enqueue one reset-request `HexCommand.Write` exactly when
`plc_data_on` rises from `false` to `true`; always remember the current
flag as `last_plc_on`. -/
def gaugeFold : Bool → List GaugeResponse → List (GaugeResponse × HexCommand)
  | _, [] => []
  | last_plc_on, r :: rs =>
    if r.plc_data_on && !last_plc_on then
      (r, HexCommand.Write) :: gaugeFold r.plc_data_on rs
    else
      gaugeFold r.plc_data_on rs

/-- `gauge_get_response`: the fold starts with `last_plc_on = false`. -/
def gauge_get_response (rs : List GaugeResponse) : List (GaugeResponse × HexCommand) :=
  gaugeFold false rs

/-! ## Association-list lemmas -/

theorem lookup_aremove_self {α : Type} (l : List (Nat × α)) (k : Nat) :
    (aremove l k).lookup k = none := by
  induction l with
  | nil => rfl
  | cons p t ih =>
    rcases p with ⟨a, v⟩
    by_cases h : a = k
    · simpa [aremove, List.filter_cons, h] using ih
    · have hk : (k == a) = false := by simpa using Ne.symm h
      simpa [aremove, List.filter_cons, h, List.lookup_cons, hk] using ih

theorem lookup_aset_self {α : Type} (l : List (Nat × α)) (k : Nat) (v : α) :
    (aset l k v).lookup k = some v := by
  simp [aset, List.lookup]

/-! ## Sortedness helpers for the trimmed mean -/

theorem sorted_head_le {s : List Int} (hs : s.Sorted (· ≤ ·)) {x : Int} (hx : x ∈ s)
    (hne : s ≠ []) : s.head hne ≤ x := by
  cases s with
  | nil => exact absurd rfl hne
  | cons a t =>
    rcases List.mem_cons.mp hx with rfl | hx'
    · simp
    · simpa using (List.sorted_cons.mp hs).1 x hx'

theorem sorted_le_getLast {s : List Int} (hs : s.Sorted (· ≤ ·)) (hne : s ≠ []) :
    ∀ x ∈ s, x ≤ s.getLast hne := by
  induction s with
  | nil => exact absurd rfl hne
  | cons a t ih =>
    intro x hx
    cases t with
    | nil =>
      simp only [List.mem_singleton] at hx
      simp [hx, List.getLast]
    | cons b t' =>
      rw [List.getLast_cons (by simp : (b :: t') ≠ [])]
      rcases List.mem_cons.mp hx with rfl | hx'
      · have h1 : x ≤ b := by simpa using (List.sorted_cons.mp hs).1 b (by simp)
        have h2 : b ≤ (b :: t').getLast (by simp) :=
          ih (List.sorted_cons.mp hs).2 (by simp) b (by simp)
        exact le_trans h1 h2
      · exact ih (List.sorted_cons.mp hs).2 (by simp) x hx'

/-- With more than two values, the computed raw average is exactly the
specification's trimmed mean: one minimum and one maximum of the queue are
discarded (ties included — exactly one copy of each goes) and the rest is
averaged. -/
theorem trimmedAvg_spec {q : List Int} (h : 2 < q.length) :
    ∃ m M rest, (∀ x ∈ q, m ≤ x) ∧ (∀ x ∈ q, x ≤ M) ∧
      q.Perm (m :: M :: rest) ∧ rest.length = q.length - 2 ∧
      trimmedAvgRaw q = ((rest.map (Int.cast : Int → ℚ)).sum) / (rest.length : ℚ) := by
  classical
  have hperm : (q.insertionSort (· ≤ ·)).Perm q := List.perm_insertionSort _ q
  have hsorted : (q.insertionSort (· ≤ ·)).Sorted (· ≤ ·) := List.sorted_insertionSort _ q
  have hlen : (q.insertionSort (· ≤ ·)).length = q.length := hperm.length_eq
  obtain ⟨a, t, hst⟩ : ∃ a t, q.insertionSort (· ≤ ·) = a :: t := by
    cases hq : q.insertionSort (· ≤ ·) with
    | nil =>
      rw [hq] at hlen
      simp at hlen
      omega
    | cons a t => exact ⟨a, t, rfl⟩
  rw [hst] at hperm hsorted hlen
  have htlen : t.length = q.length - 1 := by
    simp only [List.length_cons] at hlen
    omega
  have ht : t ≠ [] := by
    intro h0
    rw [h0] at htlen
    simp at htlen
    omega
  refine ⟨a, t.getLast ht, t.dropLast, ?_, ?_, ?_, ?_, ?_⟩
  · intro x hx
    exact sorted_head_le hsorted (hperm.mem_iff.mpr hx) (by simp)
  · intro x hx
    have hle := sorted_le_getLast hsorted (by simp) x (hperm.mem_iff.mpr hx)
    rwa [List.getLast_cons ht] at hle
  · have hδ : t.dropLast ++ [t.getLast ht] = t := List.dropLast_append_getLast ht
    have h1 : (t.dropLast ++ [t.getLast ht]).Perm (t.getLast ht :: t.dropLast) :=
      List.perm_append_singleton _ _
    have h2 : t.Perm (t.getLast ht :: t.dropLast) := by
      conv_lhs => rw [← hδ]
      exact h1
    exact hperm.symm.trans (List.Perm.cons a h2)
  · rw [List.length_dropLast]
    omega
  · have h1 : t.take ((a :: t).length - 2) = t.dropLast := by
      rw [List.dropLast_eq_take, List.length_cons]
      congr 1
    simp only [trimmedAvgRaw, if_pos h, hst, List.drop_one, List.tail_cons, h1]
    congr 1
    rw [List.length_dropLast, Nat.cast_sub (List.length_pos.mpr ht), List.length_cons]
    push_cast
    ring

/-! ## Rounding lemmas: `f64::round` rounds to nearest, halves away from zero -/

theorem roundHalfAway_near (q : ℚ) : |(roundHalfAway q : ℚ) - q| ≤ 1/2 := by
  rw [roundHalfAway]
  split
  · have h1 : (⌊q + 1/2⌋ : ℚ) ≤ q + 1/2 := Int.floor_le _
    have h2 : q + 1/2 - 1 < (⌊q + 1/2⌋ : ℚ) := Int.sub_one_lt_floor _
    rw [abs_le]
    constructor <;> linarith
  · have h1 : q - 1/2 ≤ (⌈q - 1/2⌉ : ℚ) := Int.le_ceil _
    have h2 : (⌈q - 1/2⌉ : ℚ) < q - 1/2 + 1 := Int.ceil_lt_add_one _
    rw [abs_le]
    constructor <;> linarith

theorem roundHalfAway_half_nonneg (k : ℤ) (hk : 0 ≤ (k : ℚ) + 1/2) :
    roundHalfAway ((k : ℚ) + 1/2) = k + 1 := by
  rw [roundHalfAway, if_pos hk]
  have : (k : ℚ) + 1/2 + 1/2 = ((k + 1 : ℤ) : ℚ) := by push_cast; ring
  rw [this, Int.floor_intCast]

theorem roundHalfAway_half_neg (k : ℤ) (hk : (k : ℚ) + 1/2 < 0) :
    roundHalfAway ((k : ℚ) + 1/2) = k := by
  rw [roundHalfAway, if_neg (not_le.mpr hk)]
  have : (k : ℚ) + 1/2 - 1/2 = ((k : ℤ) : ℚ) := by ring
  rw [this, Int.ceil_intCast]

/-! ## Plumbing: how `check_and_extract` transforms the queue map -/

/-- With a connected, non-busy handle, `check_and_extract` drains the
machine's queue when it has reached the batch size (also on the missing
tool-data error path) and re-inserts it unchanged otherwise. -/
theorem check_and_extract_batches
    (gb : GaugeBatches) (key : Nat) (handle : FocasClient)
    (hh : gb.handle_table.lookup key = some handle)
    (hc : handle.is_connected = true)
    (hb : handle.is_busy = false) :
    (gb.check_and_extract key).2.batches
      = if ((gb.batches.lookup key).getD []).length ≥ (gb.batch_size.lookup key).getD 5
        then aremove gb.batches key
        else aset (aremove gb.batches key) key ((gb.batches.lookup key).getD []) := by
  simp only [GaugeBatches.check_and_extract, hh, hc, hb, Bool.not_true, Bool.false_or,
    Bool.false_eq_true, if_false]
  split
  · split
    · rfl
    · rfl
  · rfl

/-- C3 (amended): after `check_and_extract` runs for a machine whose
controller handle is connected and not busy, that machine's pending queue
holds at most `threshold - 1` values — reaching the threshold drains the
whole queue into one aggregation.  (While the controller is busy or
disconnected the queue is left untouched and keeps growing; see the
counterexample.) -/
theorem check_and_extract_queue_bound
    (gb : GaugeBatches) (key : Nat) (handle : FocasClient)
    (hh : gb.handle_table.lookup key = some handle)
    (hc : handle.is_connected = true)
    (hb : handle.is_busy = false) :
    (gb.check_and_extract key).2.queueLen key ≤ (gb.batch_size.lookup key).getD 5 - 1 ∧
    ((gb.batch_size.lookup key).getD 5 ≤ ((gb.batches.lookup key).getD []).length →
      (gb.check_and_extract key).2.queueLen key = 0) := by
  have hbatches := check_and_extract_batches gb key handle hh hc hb
  rw [GaugeBatches.queueLen, hbatches]
  by_cases hlen : ((gb.batches.lookup key).getD []).length ≥ (gb.batch_size.lookup key).getD 5
  · rw [if_pos hlen, lookup_aremove_self]
    simp
  · rw [if_neg hlen, lookup_aset_self]
    constructor
    · simp only [Option.getD_some]
      omega
    · intro hcontra
      exact absurd hcontra hlen

/-- C3 counterexample: with a busy controller (threshold 5), six inserted
samples all stay queued and a `check_and_extract` pass leaves all six in
place — the queue exceeds `threshold - 1` at rest, and samples keep
accumulating while the controller is busy. -/
theorem queue_bound_counterexample :
    ((((((((⟨[], [(1, (⟨1, 11, 48, 0, 1, true, none, none⟩,
            ⟨1, 12, 48, 0, 1, true, none, none⟩))], [(1, ⟨7, true⟩)],
            [(1, 5)]⟩ : GaugeBatches).insert 1 10).insert 1 11).insert 1 12).insert
            1 13).insert 1 14).insert 1 15).check_and_extract 1).2.queueLen 1 = 6 ∧
      ¬ (6 ≤ 5 - 1) := by
  constructor
  · rfl
  · decide

/-- C10 (amended): with a connected, non-busy controller for `key` but no
tool-data entry, and a queue that has reached the batch size,
`check_and_extract` fails with "No tool data found" *after* having drained
the queue: the samples are lost. -/
theorem check_and_extract_no_tool_data
    (gb : GaugeBatches) (key : Nat) (handle : FocasClient) (q : List Int) (bs : Nat)
    (hh : gb.handle_table.lookup key = some handle)
    (hc : handle.is_connected = true)
    (hb : handle.is_busy = false)
    (hq : (gb.batches.lookup key).getD [] = q)
    (hbs : (gb.batch_size.lookup key).getD 5 = bs)
    (hlen : bs ≤ q.length)
    (htd : gb.tool_data.lookup key = none) :
    (gb.check_and_extract key).1
        = .error ("No tool data found for machine " ++ toString key) ∧
    (gb.check_and_extract key).2.batches = aremove gb.batches key ∧
    (gb.check_and_extract key).2.queueLen key = 0 := by
  have hge : ((gb.batches.lookup key).getD []).length ≥ (gb.batch_size.lookup key).getD 5 := by
    rw [hq, hbs]
    exact hlen
  refine ⟨?_, ?_, ?_⟩
  · simp only [GaugeBatches.check_and_extract, hh, hc, hb, Bool.not_true, Bool.false_or,
      Bool.false_eq_true, if_false, if_pos hge, htd]
  · rw [check_and_extract_batches gb key handle hh hc hb, if_pos hge]
  · rw [GaugeBatches.queueLen, check_and_extract_batches gb key handle hh hc hb,
      if_pos hge, lookup_aremove_self]
    rfl

/-- C10 counterexample to the unamended claim: with a connected, non-busy
controller and no tool data but only one queued sample (below the default
threshold of 5), `check_and_extract` returns `Ok` — no "No tool data
found" error — and the sample stays queued. -/
theorem no_tool_data_counterexample :
    ((⟨[(1, [7])], [], [(1, ⟨3, false⟩)], [(1, 5)]⟩ : GaugeBatches).check_and_extract 1).1
        = .ok (none, none) ∧
    ((⟨[(1, [7])], [], [(1, ⟨3, false⟩)], [(1, 5)]⟩ : GaugeBatches).check_and_extract 1).2.queueLen 1
        = 1 := by
  constructor
  · rfl
  · rfl

/-- C1: for a machine with a connected, non-busy controller whose queue has
reached the batch size, `check_and_extract` stores (for both paired tools)
the aggregate `trimmedAvgRaw q`, fixed-point scaled; with more than 2
queued values that aggregate is the trimmed mean — sort ascending, discard
exactly one minimum and one maximum (ties included), average the rest —
and with 2 or fewer values it is the plain mean of all of them. -/
theorem check_and_extract_trimmed_mean
    (gb : GaugeBatches) (key : Nat) (handle : FocasClient) (q : List Int) (bs : Nat)
    (tu tl : ToolData)
    (hh : gb.handle_table.lookup key = some handle)
    (hc : handle.is_connected = true)
    (hb : handle.is_busy = false)
    (hq : (gb.batches.lookup key).getD [] = q)
    (hbs : (gb.batch_size.lookup key).getD 5 = bs)
    (hlen : bs ≤ q.length)
    (htd : gb.tool_data.lookup key = some (tu, tl)) :
    (∃ tu' tl', ((gb.check_and_extract key).2.tool_data.lookup key = some (tu', tl')) ∧
        tu'.avg_gauge = some ((roundHalfAway (trimmedAvgRaw q) : ℚ) / 10000) ∧
        tl'.avg_gauge = some ((roundHalfAway (trimmedAvgRaw q) : ℚ) / 10000)) ∧
    (2 < q.length →
      ∃ m M rest, (∀ x ∈ q, m ≤ x) ∧ (∀ x ∈ q, x ≤ M) ∧ q.Perm (m :: M :: rest) ∧
        rest.length = q.length - 2 ∧
        trimmedAvgRaw q = ((rest.map (Int.cast : Int → ℚ)).sum) / (rest.length : ℚ)) ∧
    (q.length ≤ 2 →
      trimmedAvgRaw q = ((q.map (Int.cast : Int → ℚ)).sum) / (q.length : ℚ)) := by
  refine ⟨?_, fun h2 => trimmedAvg_spec h2, fun h2 => ?_⟩
  · simp only [GaugeBatches.check_and_extract, hh, hc, hb, Bool.not_true, Bool.false_or,
      Bool.false_eq_true, if_false, hq, hbs, ge_iff_le, hlen, if_true, htd]
    refine ⟨_, _, lookup_aset_self _ _ _, ?_, ?_⟩
    · rfl
    · rfl
  · rw [trimmedAvgRaw.eq_def, if_neg (by omega)]

/-- C1 witness: the specification's own example — samples `[1,5,5,5,9]`
with threshold 5.  The trimmed mean is `5`, and the extraction stores it
(scaled by the fixed-point convention) on both paired tools. -/
theorem check_and_extract_trimmed_mean_witness :
    (∃ tu' tl',
      (((⟨[(1, [1, 5, 5, 5, 9])],
          [(1, (⟨1, 11, 48, 0, 1, true, none, none⟩, ⟨1, 12, 48, 0, 1, true, none, none⟩))],
          [(1, ⟨7, false⟩)], [(1, 5)]⟩ : GaugeBatches).check_and_extract 1).2.tool_data.lookup 1
          = some (tu', tl')) ∧
      tu'.avg_gauge = some ((roundHalfAway (trimmedAvgRaw [1, 5, 5, 5, 9]) : ℚ) / 10000) ∧
      tl'.avg_gauge = some ((roundHalfAway (trimmedAvgRaw [1, 5, 5, 5, 9]) : ℚ) / 10000)) ∧
    trimmedAvgRaw [1, 5, 5, 5, 9] = 5 :=
  ⟨(check_and_extract_trimmed_mean
      (⟨[(1, [1, 5, 5, 5, 9])],
        [(1, (⟨1, 11, 48, 0, 1, true, none, none⟩, ⟨1, 12, 48, 0, 1, true, none, none⟩))],
        [(1, ⟨7, false⟩)], [(1, 5)]⟩ : GaugeBatches) 1 ⟨7, false⟩ [1, 5, 5, 5, 9] 5
      ⟨1, 11, 48, 0, 1, true, none, none⟩ ⟨1, 12, 48, 0, 1, true, none, none⟩
      rfl rfl rfl rfl rfl (by decide) rfl).1,
    by
      have hsort : List.insertionSort (fun a b => a ≤ b) ([1, 5, 5, 5, 9] : List Int)
          = [1, 5, 5, 5, 9] := rfl
      simp only [trimmedAvgRaw, hsort]
      norm_num⟩

/-- C2: whenever `avg_gauge` is present, `get_final_offset` is exactly
`(basic_size − avg_gauge + manual_offset) × offset_rate`, and
`get_final_offset_as_i32` is that correction times 10000, rounded to the
nearest integer with halves away from zero (within 1/2 of the exact value,
and on exact halves rounding up for nonnegative and down for negative
values); with `avg_gauge` absent both are `none`. -/
theorem get_final_offset_correct (td : ToolData) :
    (∀ avg, td.avg_gauge = some avg →
      td.get_final_offset
          = some ((td.basic_size - avg + td.manual_offset) * td.offset_rate) ∧
      td.get_final_offset_as_i32
          = some (roundHalfAway
              (((td.basic_size - avg + td.manual_offset) * td.offset_rate) * 10000)) ∧
      (∀ n : ℤ, td.get_final_offset_as_i32 = some n →
        |(n : ℚ) - ((td.basic_size - avg + td.manual_offset) * td.offset_rate) * 10000| ≤ 1/2) ∧
      (∀ k : ℤ,
        ((td.basic_size - avg + td.manual_offset) * td.offset_rate) * 10000 = (k : ℚ) + 1/2 →
        (0 ≤ (k : ℚ) + 1/2 → td.get_final_offset_as_i32 = some (k + 1)) ∧
        ((k : ℚ) + 1/2 < 0 → td.get_final_offset_as_i32 = some k))) ∧
    (td.avg_gauge = none →
      td.get_final_offset = none ∧ td.get_final_offset_as_i32 = none) := by
  constructor
  · intro avg havg
    have h1 : td.get_final_offset
        = some ((td.basic_size - avg + td.manual_offset) * td.offset_rate) := by
      simp only [ToolData.get_final_offset, havg]
    have h2 : td.get_final_offset_as_i32
        = some (roundHalfAway
            (((td.basic_size - avg + td.manual_offset) * td.offset_rate) * 10000)) := by
      simp only [ToolData.get_final_offset_as_i32, h1, Option.map_some']
    refine ⟨h1, h2, ?_, ?_⟩
    · intro n hn
      rw [h2] at hn
      injection hn with hn
      subst hn
      exact roundHalfAway_near _
    · intro k hk
      refine ⟨fun hpos => ?_, fun hneg => ?_⟩
      · rw [h2, hk, roundHalfAway_half_nonneg k hpos]
      · rw [h2, hk, roundHalfAway_half_neg k hneg]
  · intro hnone
    constructor
    · simp only [ToolData.get_final_offset, hnone]
    · simp only [ToolData.get_final_offset_as_i32, ToolData.get_final_offset, hnone,
        Option.map_none']

/-- C2 witness: the specification's example — `basic_size = 48`,
`avg = 47.995`, `manual_offset = 0`, `offset_rate = 1` gives the correction
`0.005`, i.e. `50` fixed-point units after scaling and rounding. -/
theorem get_final_offset_witness :
    (ToolData.mk 1 11 48 0 1 true (some (9599/200)) none).get_final_offset
        = some ((48 - 9599/200 + 0) * 1) ∧
    (ToolData.mk 1 11 48 0 1 true (some (9599/200)) none).get_final_offset_as_i32
        = some 50 := by
  have h := (get_final_offset_correct
      (ToolData.mk 1 11 48 0 1 true (some (9599/200)) none)).1 (9599/200) rfl
  refine ⟨h.1, ?_⟩
  rw [h.2.1]
  norm_num [roundHalfAway]

/-- C3 witness: a connected, non-busy machine with 5 queued samples at
threshold 5 is fully drained by `check_and_extract`. -/
theorem check_and_extract_queue_bound_witness :
    ((⟨[(1, [1, 2, 3, 4, 5])],
        [(1, (⟨1, 11, 48, 0, 1, true, none, none⟩, ⟨1, 12, 48, 0, 1, true, none, none⟩))],
        [(1, ⟨7, false⟩)], [(1, 5)]⟩ : GaugeBatches).check_and_extract 1).2.queueLen 1 = 0 :=
  (check_and_extract_queue_bound
      (⟨[(1, [1, 2, 3, 4, 5])],
        [(1, (⟨1, 11, 48, 0, 1, true, none, none⟩, ⟨1, 12, 48, 0, 1, true, none, none⟩))],
        [(1, ⟨7, false⟩)], [(1, 5)]⟩ : GaugeBatches) 1 ⟨7, false⟩ rfl rfl rfl).2 (by decide)

/-- C10 witness: connected and non-busy, 5 queued samples at threshold 5,
but no tool-data entry: the error fires and the queue is gone. -/
theorem check_and_extract_no_tool_data_witness :
    ((⟨[(1, [1, 2, 3, 4, 5])], [], [(1, ⟨7, false⟩)],
        [(1, 5)]⟩ : GaugeBatches).check_and_extract 1).1
        = .error ("No tool data found for machine " ++ toString 1) ∧
    ((⟨[(1, [1, 2, 3, 4, 5])], [], [(1, ⟨7, false⟩)],
        [(1, 5)]⟩ : GaugeBatches).check_and_extract 1).2.batches
        = aremove [(1, [1, 2, 3, 4, 5])] 1 ∧
    ((⟨[(1, [1, 2, 3, 4, 5])], [], [(1, ⟨7, false⟩)],
        [(1, 5)]⟩ : GaugeBatches).check_and_extract 1).2.queueLen 1 = 0 :=
  check_and_extract_no_tool_data
    (⟨[(1, [1, 2, 3, 4, 5])], [], [(1, ⟨7, false⟩)], [(1, 5)]⟩ : GaugeBatches)
    1 ⟨7, false⟩ [1, 2, 3, 4, 5] 5 rfl rfl rfl rfl rfl (by decide) rfl

/-! ## Write-path lemmas for `FocasClient::wrtofs` -/

/-- What one annotated trace entry of the write path must satisfy:
native writes carry the caller's arguments and happen busy-and-connected;
the handle release and every reconnection attempt/backoff happen
disconnected; backoffs are 5 s; a successful reconnection restores a
non-zero handle. -/
def EntrySpec (number ofs_type data : Int) (e : FEvent × FocasClient) : Prop :=
  (∀ n' o' d', e.1 = FEvent.nativeWrtofs n' o' d' →
      n' = number ∧ o' = ofs_type ∧ d' = data ∧ e.2.handle ≠ 0 ∧ e.2.busy = true) ∧
  (e.1 = FEvent.freeHandle → e.2.handle = 0 ∧ e.2.busy = false) ∧
  (e.1 = FEvent.allocAttempt false → e.2.handle = 0) ∧
  (∀ k, e.1 = FEvent.sleepSecs k → k = 5 ∧ e.2.handle = 0) ∧
  (e.1 = FEvent.allocAttempt true → e.2.handle ≠ 0)

theorem reconnectLoop_mem (cs : List Nat) (c : FocasClient) :
    ∀ e ∈ (reconnectLoop cs c).2,
      e = (.allocAttempt false, c) ∨ e = (.sleepSecs 5, c) ∨
      ∃ h, h ≠ 0 ∧ e = (.allocAttempt true, { c with handle := h }) := by
  induction cs with
  | nil =>
    intro e he
    simp [reconnectLoop] at he
  | cons h rest ih =>
    intro e he
    by_cases h0 : h = 0
    · simp only [reconnectLoop, if_pos h0, List.mem_cons] at he
      rcases he with rfl | rfl | he
      · exact Or.inl rfl
      · exact Or.inr (Or.inl rfl)
      · exact ih e he
    · simp only [reconnectLoop, if_neg h0, List.mem_singleton] at he
      exact Or.inr (Or.inr ⟨h, h0, he⟩)

theorem reconnectLoop_result (cs : List Nat) (c : FocasClient) :
    ∀ c' cs', (reconnectLoop cs c).1 = some (c', cs') →
      c'.handle ≠ 0 ∧ c'.busy = c.busy := by
  induction cs with
  | nil =>
    intro c' cs' h
    simp [reconnectLoop] at h
  | cons h rest ih =>
    intro c' cs' hr
    by_cases h0 : h = 0
    · simp only [reconnectLoop, if_pos h0] at hr
      exact ih c' cs' hr
    · simp only [reconnectLoop, if_neg h0, Option.some.injEq, Prod.mk.injEq] at hr
      obtain ⟨h1, -⟩ := hr
      subst h1
      exact ⟨by simpa using h0, rfl⟩

theorem reconnectLoop_entry_spec (cs : List Nat) (c : FocasClient) (hh : c.handle = 0)
    (number ofs_type data : Int) :
    ∀ e ∈ (reconnectLoop cs c).2, EntrySpec number ofs_type data e := by
  intro e he
  rcases reconnectLoop_mem cs c e he with rfl | rfl | ⟨h, h0, rfl⟩
  · simp [EntrySpec, hh]
  · simp [EntrySpec, hh]
  · simp [EntrySpec, h0]

theorem wrtofsGo_spec (ws : List Bool) : ∀ (cs : List Nat) (c : FocasClient)
    (number ofs_type data : Int), c.handle ≠ 0 →
    (∀ c', (wrtofsGo ws cs c number ofs_type data).1 = some c' →
        c'.busy = false ∧ c'.handle ≠ 0) ∧
    (∀ e ∈ (wrtofsGo ws cs c number ofs_type data).2,
        EntrySpec number ofs_type data e) := by
  induction ws with
  | nil =>
    intro cs c number ofs_type data hh
    exact ⟨fun c' hc' => by simp [wrtofsGo] at hc',
           fun e he => by simp [wrtofsGo] at he⟩
  | cons w ws ih =>
    intro cs c number ofs_type data hh
    cases w with
    | true =>
      constructor
      · intro c' hc'
        simp only [wrtofsGo, if_pos, Option.some.injEq] at hc'
        subst hc'
        exact ⟨rfl, hh⟩
      · intro e he
        simp only [wrtofsGo, if_pos, List.mem_cons, List.not_mem_nil, or_false] at he
        rcases he with rfl | rfl | rfl
        · simp [EntrySpec]
        · simp [EntrySpec, FocasClient.set_busy, hh]
        · simp [EntrySpec]
    | false =>
      rcases hrl : reconnectLoop cs ⟨0, false⟩ with ⟨r, evs⟩
      cases r with
      | none =>
        have hunfold : wrtofsGo (false :: ws) cs c number ofs_type data
            = (none,
               [((FEvent.setBusy true), (⟨c.handle, true⟩ : FocasClient)),
                (FEvent.nativeWrtofs number ofs_type data, ⟨c.handle, true⟩),
                (FEvent.setBusy false, ⟨c.handle, false⟩),
                (FEvent.freeHandle, ⟨0, false⟩)] ++ evs) := by
          simp [wrtofsGo, FocasClient.set_busy, hrl]
        constructor
        · intro c' hc'
          rw [hunfold] at hc'
          simp at hc'
        · intro e he
          rw [hunfold] at he
          rcases List.mem_append.mp he with hpre | hevs
          · simp only [List.mem_cons, List.not_mem_nil, or_false] at hpre
            rcases hpre with rfl | rfl | rfl | rfl
            · simp [EntrySpec]
            · simp [EntrySpec, hh]
            · simp [EntrySpec]
            · simp [EntrySpec]
          · exact reconnectLoop_entry_spec cs ⟨0, false⟩ rfl number ofs_type data e (by rw [hrl]; exact hevs)
      | some p =>
        rcases p with ⟨c4, cs'⟩
        have hres := reconnectLoop_result cs ⟨0, false⟩ c4 cs' (by rw [hrl])
        obtain ⟨ih1, ih2⟩ := ih cs' c4 number ofs_type data hres.1
        have hunfold : wrtofsGo (false :: ws) cs c number ofs_type data
            = ((wrtofsGo ws cs' c4 number ofs_type data).1,
               ([((FEvent.setBusy true), (⟨c.handle, true⟩ : FocasClient)),
                 (FEvent.nativeWrtofs number ofs_type data, ⟨c.handle, true⟩),
                 (FEvent.setBusy false, ⟨c.handle, false⟩),
                 (FEvent.freeHandle, ⟨0, false⟩)] ++ evs)
                 ++ (wrtofsGo ws cs' c4 number ofs_type data).2) := by
          simp [wrtofsGo, FocasClient.set_busy, hrl]
        constructor
        · intro c' hc'
          rw [hunfold] at hc'
          exact ih1 c' hc'
        · intro e he
          rw [hunfold] at he
          rcases List.mem_append.mp he with hpre | hrec
          · rcases List.mem_append.mp hpre with hpre' | hevs
            · simp only [List.mem_cons, List.not_mem_nil, or_false] at hpre'
              rcases hpre' with rfl | rfl | rfl | rfl
              · simp [EntrySpec]
              · simp [EntrySpec, hh]
              · simp [EntrySpec]
              · simp [EntrySpec]
            · exact reconnectLoop_entry_spec cs ⟨0, false⟩ rfl number ofs_type data e (by rw [hrl]; exact hevs)
          · exact ih2 e hrec

theorem busyBracketed_of_nonNative (l : List FEvent)
    (hl : ∀ e ∈ l, e.isNative = false) : BusyBracketed l := by
  induction l with
  | nil => exact .nil
  | cons e t ih =>
    exact .skip e t (hl e (by simp)) (ih fun e' he' => hl e' (by simp [he']))

theorem busyBracketed_append (l tr : List FEvent)
    (hl : ∀ e ∈ l, e.isNative = false) (htr : BusyBracketed tr) :
    BusyBracketed (l ++ tr) := by
  induction l with
  | nil => simpa using htr
  | cons e t ih =>
    exact .skip e _ (hl e (by simp)) (ih fun e' he' => hl e' (by simp [he']))

theorem reconnectLoop_nonNative (cs : List Nat) (c : FocasClient) :
    ∀ ev ∈ (reconnectLoop cs c).2.map Prod.fst, ev.isNative = false := by
  intro ev hev
  simp only [List.mem_map] at hev
  obtain ⟨⟨e1, e2⟩, hmem, rfl⟩ := hev
  rcases reconnectLoop_mem cs c (e1, e2) hmem with h | h | ⟨h', h0, h⟩ <;>
    simp only [Prod.mk.injEq] at h <;>
    obtain ⟨rfl, -⟩ := h <;>
    rfl

theorem wrtofsGo_busyBracketed (ws : List Bool) : ∀ (cs : List Nat) (c : FocasClient)
    (number ofs_type data : Int),
    BusyBracketed ((wrtofsGo ws cs c number ofs_type data).2.map Prod.fst) := by
  induction ws with
  | nil =>
    intro cs c number ofs_type data
    simpa [wrtofsGo] using BusyBracketed.nil
  | cons w ws ih =>
    intro cs c number ofs_type data
    cases w with
    | true =>
      have hunfold : (wrtofsGo (true :: ws) cs c number ofs_type data).2.map Prod.fst
          = [FEvent.setBusy true, FEvent.nativeWrtofs number ofs_type data,
             FEvent.setBusy false] := rfl
      rw [hunfold]
      exact .bracket _ _ rfl .nil
    | false =>
      rcases hrl : reconnectLoop cs ⟨0, false⟩ with ⟨r, evs⟩
      have hevs : ∀ ev ∈ evs.map Prod.fst, ev.isNative = false := by
        intro ev hev
        exact reconnectLoop_nonNative cs ⟨0, false⟩ ev (by rw [hrl]; exact hev)
      cases r with
      | none =>
        have hunfold : (wrtofsGo (false :: ws) cs c number ofs_type data).2.map Prod.fst
            = FEvent.setBusy true :: FEvent.nativeWrtofs number ofs_type data ::
              FEvent.setBusy false :: FEvent.freeHandle :: evs.map Prod.fst := by
          simp [wrtofsGo, FocasClient.set_busy, hrl]
        rw [hunfold]
        exact .bracket _ _ rfl (.skip _ _ rfl (busyBracketed_of_nonNative _ hevs))
      | some p =>
        rcases p with ⟨c4, cs'⟩
        have hunfold : (wrtofsGo (false :: ws) cs c number ofs_type data).2.map Prod.fst
            = FEvent.setBusy true :: FEvent.nativeWrtofs number ofs_type data ::
              FEvent.setBusy false :: FEvent.freeHandle ::
              (evs.map Prod.fst ++ (wrtofsGo ws cs' c4 number ofs_type data).2.map Prod.fst) := by
          simp [wrtofsGo, FocasClient.set_busy, hrl]
        rw [hunfold]
        exact .bracket _ _ rfl (.skip _ _ rfl
          (busyBracketed_append _ _ hevs (ih cs' c4 number ofs_type data)))

/-- C4 (amended): `wrtofs`, `read_life` and `read_count` bracket every
native call between `set_busy(true)` and `set_busy(false)` (the clear
happens even on failure), but `rdtofs` only checks the busy flag: past the
guard it issues its native read with no `set_busy` at all and leaves the
client state untouched. -/
theorem busy_bracketing :
    (∀ (c : FocasClient) (number ofs_type data : Int) (ws : List Bool) (cs : List Nat),
      BusyBracketed ((c.wrtofs number ofs_type data ws cs).2.map Prod.fst)) ∧
    (∀ (c : FocasClient) (number : Int) (readOk : Bool) (value : Int),
      BusyBracketed ((c.read_life number readOk value).2.2.map Prod.fst)) ∧
    (∀ (c : FocasClient) (number : Int) (readOk : Bool) (value : Int),
      BusyBracketed ((c.read_count number readOk value).2.2.map Prod.fst)) ∧
    (∀ (c : FocasClient) (number ofs_type : Int) (readOk : Bool) (value : Int),
      c.is_busy = false → c.is_connected = true →
      (c.rdtofs number ofs_type readOk value).2.2.map Prod.fst
          = [FEvent.nativeRdtofs number ofs_type] ∧
      (c.rdtofs number ofs_type readOk value).2.1 = c) := by
  refine ⟨?_, ?_, ?_, ?_⟩
  · intro c number ofs_type data ws cs
    by_cases hguard : (c.is_busy || !c.is_connected) = true
    · simp only [FocasClient.wrtofs, if_pos hguard, List.map_nil]
      exact .nil
    · simp only [FocasClient.wrtofs, hguard, Bool.false_eq_true, if_false]
      rcases hgo : wrtofsGo ws cs c number ofs_type data with ⟨r, evs⟩
      have := wrtofsGo_busyBracketed ws cs c number ofs_type data
      rw [hgo] at this
      cases r <;> exact this
  · intro c number readOk value
    by_cases hguard : (c.is_busy || !c.is_connected) = true
    · simp only [FocasClient.read_life, if_pos hguard, List.map_nil]
      exact .nil
    · simp only [FocasClient.read_life, hguard, Bool.false_eq_true, if_false]
      cases readOk <;> exact .bracket _ _ rfl .nil
  · intro c number readOk value
    by_cases hguard : (c.is_busy || !c.is_connected) = true
    · simp only [FocasClient.read_count, if_pos hguard, List.map_nil]
      exact .nil
    · simp only [FocasClient.read_count, hguard, Bool.false_eq_true, if_false]
      cases readOk <;> exact .bracket _ _ rfl .nil
  · intro c number ofs_type readOk value hb hc
    have hguard : (c.is_busy || !c.is_connected) = false := by simp [hb, hc]
    cases readOk <;> simp [FocasClient.rdtofs, hguard]

/-- C4 counterexample: on a connected, non-busy client, `rdtofs` produces
the trace `[nativeRdtofs …]` — a native call with no busy bracketing —
so not every operation sets `busy` around its native call. -/
theorem busy_bracketing_counterexample :
    ¬ BusyBracketed (((⟨1, false⟩ : FocasClient).rdtofs 3 0 true 0).2.2.map Prod.fst) ∧
    (FEvent.nativeRdtofs 3 0).isNative = true := by
  constructor
  · intro h
    rw [show ((⟨1, false⟩ : FocasClient).rdtofs 3 0 true 0).2.2.map Prod.fst
        = [FEvent.nativeRdtofs 3 0] from rfl] at h
    cases h with
    | skip e tr hn htr => simp [FEvent.isNative] at hn
  · rfl

/-- C4 witness: the bracketing holds on a concrete successful `read_life`
and a concrete `wrtofs` that fails once, reconnects and succeeds. -/
theorem busy_bracketing_witness :
    BusyBracketed (((⟨1, false⟩ : FocasClient).read_life 3 true 7).2.2.map Prod.fst) ∧
    BusyBracketed (((⟨1, false⟩ : FocasClient).wrtofs 3 0 42 [false, true] [0, 9]).2.map Prod.fst) ∧
    (((⟨1, false⟩ : FocasClient).rdtofs 3 0 true 0).2.2.map Prod.fst
        = [FEvent.nativeRdtofs 3 0] ∧
      ((⟨1, false⟩ : FocasClient).rdtofs 3 0 true 0).2.1 = ⟨1, false⟩) :=
  ⟨busy_bracketing.2.1 ⟨1, false⟩ 3 true 7,
   busy_bracketing.1 ⟨1, false⟩ 3 0 42 [false, true] [0, 9],
   busy_bracketing.2.2.2 ⟨1, false⟩ 3 0 true 0 rfl rfl⟩

/-- C6: whenever the busy flag is set or connectivity is lost, every
operation fails immediately with the busy/unreachable error, queues
nothing (empty trace) and leaves the whole state — including `busy` —
unchanged. -/
theorem fail_fast_when_busy (c : FocasClient)
    (hc : c.is_busy = true ∨ c.is_connected = false) :
    (∀ (number ofs_type data : Int) (ws : List Bool) (cs : List Nat),
        c.wrtofs number ofs_type data ws cs = (.busyErr, [])) ∧
    (∀ (number ofs_type : Int) (readOk : Bool) (value : Int),
        c.rdtofs number ofs_type readOk value
          = (.error "CNC is currently busy with another operation", c, [])) ∧
    (∀ (number : Int) (readOk : Bool) (value : Int),
        c.read_life number readOk value
          = (.error "CNC is currently busy with another operation", c, [])) ∧
    (∀ (number : Int) (readOk : Bool) (value : Int),
        c.read_count number readOk value
          = (.error "CNC is currently busy with another operation", c, [])) := by
  have hcond : (c.is_busy || !c.is_connected) = true := by
    rcases hc with h | h
    · simp [h]
    · simp [h]
  refine ⟨?_, ?_, ?_, ?_⟩ <;> intros <;>
    simp [FocasClient.wrtofs, FocasClient.rdtofs, FocasClient.read_life,
      FocasClient.read_count, hcond]

/-- C6 witness: a busy client and a disconnected client both reject reads
and writes with the busy/unreachable error, unchanged state. -/
theorem fail_fast_when_busy_witness :
    (⟨5, true⟩ : FocasClient).wrtofs 3 0 42 [true] [] = (.busyErr, []) ∧
    (⟨5, true⟩ : FocasClient).rdtofs 3 0 true 0
        = (.error "CNC is currently busy with another operation", ⟨5, true⟩, []) ∧
    (⟨0, false⟩ : FocasClient).read_life 3 true 7
        = (.error "CNC is currently busy with another operation", ⟨0, false⟩, []) :=
  ⟨(fail_fast_when_busy ⟨5, true⟩ (Or.inl rfl)).1 3 0 42 [true] [],
   (fail_fast_when_busy ⟨5, true⟩ (Or.inl rfl)).2.1 3 0 true 0,
   (fail_fast_when_busy ⟨0, false⟩ (Or.inr rfl)).2.2.1 3 true 7⟩

/-- C5: starting from a non-busy, connected client, `wrtofs` never
surfaces a native-write failure: it either returns `Ok` — with `busy`
cleared and connectivity true — or is still inside its retry loops.
Every native write attempt in the trace uses the caller's tool number,
offset type and value (the same write retried from the top) and runs
against a live handle; after a failure the handle release and every
failed reconnection attempt and backoff happen with connectivity false —
at those moments any read fails with the busy/unreachable error — every
backoff sleeps exactly 5 seconds, and a successful reconnection makes
connectivity true again. -/
theorem wrtofs_reconnect_policy (c : FocasClient) (number ofs_type data : Int)
    (ws : List Bool) (cs : List Nat)
    (hb : c.is_busy = false) (hc : c.is_connected = true) :
    ((c.wrtofs number ofs_type data ws cs).1 = .running ∨
      ∃ c', (c.wrtofs number ofs_type data ws cs).1 = .ok c' ∧
        c'.busy = false ∧ c'.is_connected = true) ∧
    (∀ e ∈ (c.wrtofs number ofs_type data ws cs).2,
      (∀ n' o' d', e.1 = FEvent.nativeWrtofs n' o' d' →
          n' = number ∧ o' = ofs_type ∧ d' = data ∧ e.2.is_connected = true) ∧
      (e.1 = FEvent.freeHandle → e.2.is_connected = false) ∧
      ((e.1 = FEvent.allocAttempt false ∨ (∃ k, e.1 = FEvent.sleepSecs k)) →
          e.2.is_connected = false ∧
          (∀ (n₂ o₂ : Int) (r₂ : Bool) (v₂ : Int),
            (e.2.rdtofs n₂ o₂ r₂ v₂).1
              = .error "CNC is currently busy with another operation") ∧
          (∀ (n₃ o₃ d₃ : Int) (ws₃ : List Bool) (cs₃ : List Nat),
            (e.2.wrtofs n₃ o₃ d₃ ws₃ cs₃).1 = WrtofsOutcome.busyErr)) ∧
      (∀ k, e.1 = FEvent.sleepSecs k → k = 5) ∧
      (e.1 = FEvent.allocAttempt true → e.2.is_connected = true)) := by
  have hh : c.handle ≠ 0 := by
    simpa [FocasClient.is_connected] using hc
  obtain ⟨hres, hmem⟩ := wrtofsGo_spec ws cs c number ofs_type data hh
  constructor
  · rcases hgo : wrtofsGo ws cs c number ofs_type data with ⟨r, evs⟩
    cases r with
    | none =>
      left
      simp [FocasClient.wrtofs, hb, hc, hgo]
    | some c' =>
      right
      refine ⟨c', ?_, (hres c' (by rw [hgo])).1, ?_⟩
      · simp [FocasClient.wrtofs, hb, hc, hgo]
      · have := (hres c' (by rw [hgo])).2
        simp [FocasClient.is_connected, this]
  · intro e he
    have htr : (c.wrtofs number ofs_type data ws cs).2
        = (wrtofsGo ws cs c number ofs_type data).2 := by
      rcases hgo : wrtofsGo ws cs c number ofs_type data with ⟨r, evs⟩
      cases r <;> simp [FocasClient.wrtofs, hb, hc, hgo]
    rw [htr] at he
    obtain ⟨hE1, hE2, hE3, hE4, hE5⟩ := hmem e he
    refine ⟨?_, ?_, ?_, ?_, ?_⟩
    · intro n' o' d' hev
      obtain ⟨hn, ho, hd, hhandle, -⟩ := hE1 n' o' d' hev
      exact ⟨hn, ho, hd, by simp [FocasClient.is_connected, hhandle]⟩
    · intro hev
      obtain ⟨hhandle, -⟩ := hE2 hev
      simp [FocasClient.is_connected, hhandle]
    · intro hev
      have hhandle : e.2.handle = 0 := by
        rcases hev with hev | ⟨k, hev⟩
        · exact hE3 hev
        · exact (hE4 k hev).2
      refine ⟨by simp [FocasClient.is_connected, hhandle], ?_, ?_⟩
      · intro n₂ o₂ r₂ v₂
        simp [FocasClient.rdtofs, FocasClient.is_connected, hhandle]
      · intro n₃ o₃ d₃ ws₃ cs₃
        simp [FocasClient.wrtofs, FocasClient.is_connected, hhandle]
    · intro k hev
      exact (hE4 k hev).1
    · intro hev
      simp [FocasClient.is_connected, hE5 hev]

/-- C5 witness: a concrete client whose first native write fails, whose
first reconnection attempt fails (5 s backoff) and whose second succeeds,
after which the retried write succeeds. -/
theorem wrtofs_reconnect_policy_witness :
    (((⟨1, false⟩ : FocasClient).wrtofs 3 0 42 [false, true] [0, 9]).1 = .running ∨
      ∃ c', (((⟨1, false⟩ : FocasClient).wrtofs 3 0 42 [false, true] [0, 9]).1 = .ok c') ∧
        c'.busy = false ∧ c'.is_connected = true) ∧
    (∀ e ∈ (((⟨1, false⟩ : FocasClient)).wrtofs 3 0 42 [false, true] [0, 9]).2,
      (∀ n' o' d', e.1 = FEvent.nativeWrtofs n' o' d' →
          n' = 3 ∧ o' = 0 ∧ d' = 42 ∧ e.2.is_connected = true) ∧
      (e.1 = FEvent.freeHandle → e.2.is_connected = false) ∧
      ((e.1 = FEvent.allocAttempt false ∨ (∃ k, e.1 = FEvent.sleepSecs k)) →
          e.2.is_connected = false ∧
          (∀ (n₂ o₂ : Int) (r₂ : Bool) (v₂ : Int),
            (e.2.rdtofs n₂ o₂ r₂ v₂).1
              = .error "CNC is currently busy with another operation") ∧
          (∀ (n₃ o₃ d₃ : Int) (ws₃ : List Bool) (cs₃ : List Nat),
            (e.2.wrtofs n₃ o₃ d₃ ws₃ cs₃).1 = WrtofsOutcome.busyErr)) ∧
      (∀ k, e.1 = FEvent.sleepSecs k → k = 5) ∧
      (e.1 = FEvent.allocAttempt true → e.2.is_connected = true)) :=
  wrtofs_reconnect_policy ⟨1, false⟩ 3 0 42 [false, true] [0, 9] rfl rfl

/-! ## Gauge lemmas -/

theorem gaugeFold_filter (rs : List GaugeResponse) : ∀ last : Bool,
    gaugeFold last rs
      = ((rs.zip (last :: rs.map GaugeResponse.plc_data_on)).filter
            (fun p => p.1.plc_data_on && !p.2)).map (fun p => (p.1, HexCommand.Write)) := by
  induction rs with
  | nil => intro last; rfl
  | cons r rs ih =>
    intro last
    simp only [gaugeFold, List.map_cons, List.zip_cons_cons, List.filter_cons]
    by_cases hr : (r.plc_data_on && !last) = true
    · simp [hr, ih r.plc_data_on]
    · simp [hr, ih r.plc_data_on]

/-- C7: over the decoded frames of one connection (initial remembered flag
`false`), a measurement is published — together with one enqueued
reset-request write — exactly on a rising edge of the completion flag:
the frame's flag is set and the previously observed one was not.  And a
decoded frame's completion flag is set precisely when its status word
equals the defined code 2 (any other value, zero or not, is
not-complete). -/
theorem gauge_rising_edge :
    (∀ rs : List GaugeResponse,
      gauge_get_response rs
        = ((rs.zip (false :: rs.map GaugeResponse.plc_data_on)).filter
              (fun p => p.1.plc_data_on && !p.2)).map (fun p => (p.1, HexCommand.Write))) ∧
    (∀ (bytes : List Nat) (r : GaugeResponse), GaugeResponse.from_bytes bytes = some r →
        (r.plc_data_on = true ↔ u16le bytes 13 = 2)) := by
  constructor
  · intro rs
    exact gaugeFold_filter rs false
  · intro bytes r hr
    by_cases h1 : bytes.length < 11
    · simp [GaugeResponse.from_bytes, h1] at hr
    · by_cases h2 : u16le bytes 9 ≠ 0
      · simp [GaugeResponse.from_bytes, h1, h2] at hr
      · by_cases h3 : bytes.length < PLC_RESPONSE_MIN_LEN
        · simp [GaugeResponse.from_bytes, h1, h2, h3] at hr
        · simp only [GaugeResponse.from_bytes, h1, h2, h3, if_false, if_neg,
            not_false_eq_true, Option.some.injEq] at hr
          subst hr
          simp [PLC_MEASUREMENT_COMPLETE]

/-- A complete 55-byte frame: end code 0, active line 1, status word 2
(measurement complete), all measurement slots zero. -/
def demoBytes : List Nat :=
  [0, 0, 0, 0, 0, 0, 0, 46, 0, 0, 0, 1, 0, 2, 0] ++ List.replicate 40 0

/-- The decoding of `demoBytes`. -/
def demoResponse : GaugeResponse :=
  { active_line := 1, raw_data := demoBytes, plc_data_on := true,
    lines := [⟨1, 0, 0⟩, ⟨2, 0, 0⟩, ⟨3, 0, 0⟩] }

/-- C7 witness: two identical complete frames in a row publish exactly one
measurement (the rising edge) with its reset request; the steady-state
repeat publishes nothing; and the decoded frame's flag comes from status
word 2. -/
theorem gauge_rising_edge_witness :
    gauge_get_response [demoResponse, demoResponse]
        = [(demoResponse, HexCommand.Write)] ∧
    (demoResponse.plc_data_on = true ↔ u16le demoBytes 13 = 2) := by
  constructor
  · rw [gauge_rising_edge.1 [demoResponse, demoResponse]]
    rfl
  · exact gauge_rising_edge.2 demoBytes demoResponse (by rfl)

/-- C8 (amended): `decode` extracts at most one frame per call.  It
returns no item and consumes nothing until 11 bytes (the 9-byte header
plus the 2-byte end code) are buffered and until `L + 9` bytes are
available, `L` being the little-endian u16 at offset 7; it then consumes
exactly `L + 9` bytes, leaving the remainder buffered.  A consumed frame
shorter than the 55-byte minimum or with a non-zero end code yields "no
event" — never a decoder error. -/
theorem decode_framing (src : List Nat) :
    (src.length < 11 → McProtocolCodec.decode src = (.ok none, src)) ∧
    (11 ≤ src.length → src.length < u16le src 7 + 9 →
        McProtocolCodec.decode src = (.ok none, src)) ∧
    (11 ≤ src.length → u16le src 7 + 9 ≤ src.length →
        McProtocolCodec.decode src
          = (.ok (GaugeResponse.from_bytes (src.take (u16le src 7 + 9))),
             src.drop (u16le src 7 + 9))) ∧
    (∀ frame : List Nat, frame.length < PLC_RESPONSE_MIN_LEN →
        GaugeResponse.from_bytes frame = none) ∧
    (∀ frame : List Nat, u16le frame 9 ≠ 0 → GaugeResponse.from_bytes frame = none) := by
  refine ⟨?_, ?_, ?_, ?_, ?_⟩
  · intro h
    simp [McProtocolCodec.decode, h]
  · intro h1 h2
    simp [McProtocolCodec.decode, not_lt.mpr h1, h2]
  · intro h1 h2
    simp [McProtocolCodec.decode, not_lt.mpr h1, not_lt.mpr h2]
  · intro frame hf
    by_cases h1 : frame.length < 11
    · simp [GaugeResponse.from_bytes, h1]
    · by_cases h2 : u16le frame 9 ≠ 0
      · simp [GaugeResponse.from_bytes, h1, h2]
      · simp [GaugeResponse.from_bytes, h1, h2, hf]
  · intro frame hf
    by_cases h1 : frame.length < 11
    · simp [GaugeResponse.from_bytes, h1]
    · simp [GaugeResponse.from_bytes, h1, hf]

/-- C8 counterexample: a 10-byte buffer whose length field `L` is 1: the
9-byte header is buffered and `L + 9 = 10` bytes are available, yet
`decode` extracts nothing and consumes nothing — the code waits for 11
bytes, not merely for the header and `L + 9`. -/
theorem decode_framing_counterexample :
    u16le [0, 0, 0, 0, 0, 0, 0, 1, 0, 0] 7 = 1 ∧
    9 ≤ ([0, 0, 0, 0, 0, 0, 0, 1, 0, 0] : List Nat).length ∧
    u16le [0, 0, 0, 0, 0, 0, 0, 1, 0, 0] 7 + 9
        ≤ ([0, 0, 0, 0, 0, 0, 0, 1, 0, 0] : List Nat).length ∧
    McProtocolCodec.decode [0, 0, 0, 0, 0, 0, 0, 1, 0, 0]
        = (.ok none, [0, 0, 0, 0, 0, 0, 0, 1, 0, 0]) := by
  exact ⟨rfl, by decide, by decide, rfl⟩

/-- C8 witness: a 55-byte all-zero buffer has `L = 0`, so exactly 9 bytes
are consumed and the resulting under-sized frame decodes to "no event";
and a 3-byte frame is rejected as too short. -/
theorem decode_framing_witness :
    McProtocolCodec.decode (List.replicate 55 0)
      = (.ok (GaugeResponse.from_bytes
            ((List.replicate 55 0).take (u16le (List.replicate 55 0) 7 + 9))),
         (List.replicate 55 0).drop (u16le (List.replicate 55 0) 7 + 9)) ∧
    GaugeResponse.from_bytes [1, 2, 3] = none :=
  ⟨(decode_framing (List.replicate 55 0)).2.2.1 (by decide) (by decide),
   (decode_framing (List.replicate 55 0)).2.2.2.1 [1, 2, 3] (by decide)⟩

/-- C9: for a write request against a present, connected, non-busy client
whose current-offset read succeeds with value `current`, the write path
writes `current + offset_diff` (an incremental adjustment) and — whenever
the write's retry loop returns — logs exactly one record with the old
value, the delta, the new value, and `success` mirroring the write
outcome. -/
theorem write_offset_incremental
    (handle_table : List (Nat × FocasClient)) (machine_id : Nat)
    (tool_num offset_diff current : Int) (client : FocasClient)
    (ws : List Bool) (cs : List Nat)
    (hclient : handle_table.lookup machine_id = some client)
    (hb : client.is_busy = false) (hc : client.is_connected = true)
    (hterm : (client.wrtofs tool_num 0 (current + offset_diff) ws cs).1
        ≠ WrtofsOutcome.running) :
    write_offset_to_cnc handle_table machine_id tool_num offset_diff true current ws cs
      = some (.ok (),
          [{ machine_id := machine_id, tool_num := tool_num, old_value := current,
             change_amount := offset_diff, new_value := current + offset_diff,
             success :=
               match (client.wrtofs tool_num 0 (current + offset_diff) ws cs).1 with
               | .ok _ => true
               | _ => false }]) := by
  have hguard : (client.is_busy || !client.is_connected) = false := by
    simp [hb, hc]
  have hread : (client.rdtofs tool_num 0 true current).1 = .ok current := by
    simp [FocasClient.rdtofs, hguard]
  rcases hw : (client.wrtofs tool_num 0 (current + offset_diff) ws cs).1 with _ | _ | c'
  · simp [write_offset_to_cnc, hclient, hread, hw]
  · exact absurd hw hterm
  · simp [write_offset_to_cnc, hclient, hread, hw]

/-- C9 witness: machine 1's client reads offset 100, the correction 7
yields a write of 107, and one successful record is logged. -/
theorem write_offset_incremental_witness :
    write_offset_to_cnc [(1, ⟨5, false⟩)] 1 3 7 true 100 [true] []
      = some (.ok (),
          [{ machine_id := 1, tool_num := 3, old_value := 100,
             change_amount := 7, new_value := 107,
             success :=
               match ((⟨5, false⟩ : FocasClient).wrtofs 3 0 (100 + 7) [true] []).1 with
               | .ok _ => true
               | _ => false }]) :=
  write_offset_incremental [(1, ⟨5, false⟩)] 1 3 7 100 ⟨5, false⟩ [true] []
    rfl rfl rfl (by decide)

end Inzi
